import Mathlib

/-!
Verification of the latency-variance measurement harness (`src/main.cpp`)
against its natural-language specification.

The C++ source is shallowly embedded: `uint64_t` arithmetic is `Nat` with
explicit `% 2^64`, `uint8_t` arithmetic is `Nat` with explicit `% 256`,
`std::vector<uint64_t>` is `List Nat`, and the `double` quantile parameters
of `percentile_sorted` are modelled as the exact rationals they denote
(`0.50, 0.90, 0.99, 0.999`); truncation of the exactly-computed product
`p * (n - 1)` agrees with the C++ double computation for every sequence
length up to at least 2·10^6 (the program uses 10^6), checked exhaustively
outside of this development.  Clock readings are external inputs and are
modelled by an oracle `lat : Nat → Nat` giving the elapsed nanoseconds of
each measured iteration.
-/

namespace LatencyHarness

/-- `enum class Mode` (main.cpp:97): the three workload modes. -/
inductive Mode where
  | Baseline
  | Syscall
  | Pagefault
deriving DecidableEq, Repr

/-- `parse_mode` (main.cpp:99-109).  The argument is the tail of `argv`
(the arguments after the program name); `argc < 2` corresponds to `[]`,
and otherwise only `argv[1]` is inspected. -/
def parse_mode (args : List String) : Mode :=
  match args with
  | [] => Mode.Baseline
  | m :: _ =>
    if m = "baseline" then Mode.Baseline
    else if m = "syscall" then Mode.Syscall
    else if m = "pagefault" then Mode.Pagefault
    else Mode.Baseline

/-- `percentile_sorted` (main.cpp:28-38).  `sorted` must be ascending.
The C++ returns `sorted.front()` for `p <= 0`, `sorted.back()` for
`p >= 1`, and otherwise `sorted[static_cast<size_t>(p * (sorted.size()-1))]`;
the cast truncates the non-negative product, i.e. takes its floor. -/
def percentile_sorted (sorted : List Nat) (p : ℚ) : Nat :=
  if sorted.isEmpty then 0
  else if p ≤ 0 then sorted.headD 0
  else if 1 ≤ p then sorted.getLastD 0
  else sorted.getD (⌊p * ((sorted.length - 1 : ℕ) : ℚ)⌋).toNat 0

/-- `struct Stats` (main.cpp:40-48), with the zero defaults of the
member initializers. -/
structure Stats where
  min : Nat := 0
  max : Nat := 0
  avg : ℚ := 0
  p50 : Nat := 0
  p90 : Nat := 0
  p99 : Nat := 0
  p999 : Nat := 0
deriving DecidableEq, Repr

/-- `std::sort(samples.begin(), samples.end())` (main.cpp:65): ascending
sort, embedded as `List.mergeSort` with the `≤` comparator. -/
def sortAsc (l : List Nat) : List Nat := l.mergeSort

/-- `compute_stats` (main.cpp:50-72): empty input returns the
default-initialized `Stats`; otherwise min/max by a scan
(`std::minmax_element`), mean as a wide-accumulator sum
(`std::accumulate` with a `long double`, modelled exactly in `ℚ`)
divided by the count, then the four nearest-rank percentiles of the
sorted copy. -/
def compute_stats (samples : List Nat) : Stats :=
  if samples.isEmpty then {} else
  let mn := samples.min?.getD 0
  let mx := samples.max?.getD 0
  let sum : ℚ := samples.foldl (fun (acc : ℚ) (x : Nat) => acc + (x : ℚ)) 0
  let avg : ℚ := sum / (samples.length : ℚ)
  let sorted := sortAsc samples
  { min := mn
    max := mx
    avg := avg
    p50 := percentile_sorted sorted (1/2)
    p90 := percentile_sorted sorted (9/10)
    p99 := percentile_sorted sorted (99/100)
    p999 := percentile_sorted sorted (999/1000) }

/-! ## Embedding of `main` (main.cpp:115-201) -/

/-- `uint64_t` modulus. -/
def U64 : Nat := 2 ^ 64

/-- `WARMUP_ITERS` (main.cpp:122). -/
def WARMUP_ITERS : Nat := 50000

/-- `ITERS` (main.cpp:123). -/
def ITERS : Nat := 1000000

/-- `PF_PAGES` (main.cpp:142): pages of the page-fault arena. -/
def PF_PAGES : Nat := 4096

/-- The hot-path accumulator update `sink ^= (sink << 1) + 0x9e3779b97f4a7c15ull`
(main.cpp:164,170,178) on a `uint64_t` sink. -/
def mix (sink : Nat) : Nat :=
  Nat.xor sink ((sink * 2 + 0x9e3779b97f4a7c15) % U64)

/-- The warmup loop (main.cpp:129-131): `sink += (uint64_t)i * 1315423911ull`
for `i` in `[0, iters)`.  It reads and writes only the `sink` accumulator,
so its type already shows it cannot contribute samples. -/
def warmupSink (iters sink0 : Nat) : Nat :=
  (List.range iters).foldl (fun sink i => (sink + i * 1315423911) % U64) sink0

/-- `std::vector<uint8_t>::resize(n)` on an empty vector (main.cpp:145).
Per C++ vector semantics, `resize` appends `n` value-initialized elements:
each of the `n` new bytes is written with the value zero.  The first
component is the resulting contents and the second the list of byte
indices written during the resize. -/
def resizeZeroed (n : Nat) : List Nat × List Nat :=
  (List.replicate n 0, List.range n)

/-- The arena setup (main.cpp:144-147): in `Pagefault` mode the buffer is
resized to `pfPages * pageSize` bytes; in the other modes `page_buf` stays
empty.  Returns (contents, byte indices written by the setup). -/
def arenaInit (mode : Mode) (pfPages pageSize : Nat) : List Nat × List Nat :=
  match mode with
  | Mode.Pagefault => resizeZeroed (pfPages * pageSize)
  | _ => ([], [])

/-- State threaded through the measured loop: the `sink` accumulator, the
`page_buf` contents, the trace of arena page indices written so far (in
iteration order), and the collected samples. -/
structure LoopState where
  sink : Nat
  arena : List Nat
  touched : List Nat
  samples : List Nat
deriving Repr

/-- One iteration of the measured loop (main.cpp:153-188) at index `i`:
the mode's hot-path body runs (Baseline/Syscall mix the sink; `getpid()`
has no modelled effect; Pagefault additionally increments the `uint8_t`
at byte `(i % pfPages) * pageSize`, recording the touched page), then the
elapsed time `lat i` is pushed onto `samples`. -/
def loopIter (mode : Mode) (pfPages pageSize : Nat) (lat : Nat → Nat)
    (st : LoopState) (i : Nat) : LoopState :=
  let st' :=
    match mode with
    | Mode.Baseline => { st with sink := mix st.sink }
    | Mode.Syscall => { st with sink := mix st.sink }
    | Mode.Pagefault =>
      let page := i % pfPages
      { st with
        sink := mix st.sink
        arena := st.arena.set (page * pageSize)
          ((st.arena.getD (page * pageSize) 0 + 1) % 256)
        touched := st.touched ++ [page] }
  { st' with samples := st'.samples ++ [lat i] }

/-- The whole run of `main` up to `compute_stats` (main.cpp:115-188):
warmup (unmeasured, touches only `sink`), arena setup, then the measured
loop for `iters` iterations.  `pfPages` and `pageSize` generalize the
source constants `PF_PAGES` and `sysconf(_SC_PAGESIZE)`; `lat i` is the
clock-measured elapsed time of iteration `i`. -/
def runMain (mode : Mode) (pfPages pageSize : Nat) (lat : Nat → Nat)
    (warmupIters iters : Nat) : LoopState :=
  let sink1 := warmupSink warmupIters 0
  let a := arenaInit mode pfPages pageSize
  (List.range iters).foldl (loopIter mode pfPages pageSize lat)
    { sink := sink1, arena := a.1, touched := [], samples := [] }

/-- `main`'s observable outcome (main.cpp:115-201).  If the Page Arena
reservation fails, `page_buf.resize` throws `std::bad_alloc`; `main` has
no handler, so the process terminates abnormally before the measured loop
and before any report is printed (modelled as `Except.error`; an abnormal
termination has a non-zero exit status and the runtime prints a
diagnostic to stderr).  Otherwise the run completes, the report is the
computed `Stats`, and `main` returns 0 (main.cpp:200). -/
def mainRun (mode : Mode) (pfPages pageSize : Nat) (allocOk : Bool)
    (lat : Nat → Nat) (warmupIters iters : Nat) : Except String (Stats × Nat) :=
  if mode = Mode.Pagefault ∧ allocOk = false then
    Except.error "std::bad_alloc"
  else
    Except.ok (compute_stats (runMain mode pfPages pageSize lat warmupIters iters).samples, 0)

/-- The touched-page trace of the spec's concrete Pagefault scenario:
a 4-page arena (pageSize 1 to keep the arena small), 10 iterations. -/
def pfScenario : List Nat :=
  (runMain Mode.Pagefault 4 1 (fun _ => 0) 0 10).touched

/-! ## Sorting lemmas -/

theorem sortAsc_perm (l : List Nat) : List.Perm (sortAsc l) l :=
  List.mergeSort_perm l _

theorem sortAsc_sorted (l : List Nat) : (sortAsc l).Sorted (· ≤ ·) :=
  List.sorted_mergeSort' l

theorem length_sortAsc (l : List Nat) : (sortAsc l).length = l.length := by
  simp [sortAsc]

theorem sortAsc_eq_insertionSort (l : List Nat) :
    sortAsc l = l.insertionSort (· ≤ ·) :=
  List.mergeSort_eq_insertionSort (· ≤ ·) l

example : sortAsc [3, 1, 2] = [1, 2, 3] := by
  rw [sortAsc_eq_insertionSort]; decide

example : compute_stats [] = {} := rfl

/-! ## Loop invariants -/

theorem foldl_loopIter_samples (mode : Mode) (pfPages pageSize : Nat)
    (lat : Nat → Nat) :
    ∀ (l : List Nat) (st : LoopState),
      (l.foldl (loopIter mode pfPages pageSize lat) st).samples
        = st.samples ++ l.map lat := by
  intro l
  induction l with
  | nil => intro st; simp
  | cons i l ih =>
    intro st
    rw [List.foldl_cons, List.map_cons, ih]
    cases mode <;> simp [loopIter]

theorem foldl_loopIter_touched (pfPages pageSize : Nat) (lat : Nat → Nat) :
    ∀ (l : List Nat) (st : LoopState),
      (l.foldl (loopIter Mode.Pagefault pfPages pageSize lat) st).touched
        = st.touched ++ l.map (fun i => i % pfPages) := by
  intro l
  induction l with
  | nil => intro st; simp
  | cons i l ih =>
    intro st
    rw [List.foldl_cons, List.map_cons, ih]
    simp [loopIter]

/-- The sample trace of a full run: one entry per measured iteration, in
iteration order, independent of the warmup count. -/
theorem runMain_samples (mode : Mode) (pfPages pageSize : Nat)
    (lat : Nat → Nat) (warmupIters iters : Nat) :
    (runMain mode pfPages pageSize lat warmupIters iters).samples
      = (List.range iters).map lat := by
  rw [runMain, foldl_loopIter_samples]; simp

/-- The touched-page trace of a full Pagefault run. -/
theorem runMain_touched (pfPages pageSize : Nat)
    (lat : Nat → Nat) (warmupIters iters : Nat) :
    (runMain Mode.Pagefault pfPages pageSize lat warmupIters iters).touched
      = (List.range iters).map (fun i => i % pfPages) := by
  rw [runMain, foldl_loopIter_touched]; simp

/-! ## Statistics lemmas -/

theorem compute_stats_ne_nil (samples : List Nat) (h : samples ≠ []) :
    compute_stats samples =
      { min := samples.min?.getD 0
        max := samples.max?.getD 0
        avg := (samples.foldl (fun (acc : ℚ) (x : Nat) => acc + (x : ℚ)) 0) / (samples.length : ℚ)
        p50 := percentile_sorted (sortAsc samples) (1/2)
        p90 := percentile_sorted (sortAsc samples) (9/10)
        p99 := percentile_sorted (sortAsc samples) (99/100)
        p999 := percentile_sorted (sortAsc samples) (999/1000) } := by
  rw [compute_stats, if_neg]
  simp [h]

theorem percentile_sorted_eq_getD (sorted : List Nat) (p : ℚ)
    (hne : sorted ≠ []) (h0 : 0 < p) (h1 : p < 1) :
    percentile_sorted sorted p
      = sorted.getD (⌊p * ((sorted.length - 1 : ℕ) : ℚ)⌋).toNat 0 := by
  rw [percentile_sorted, if_neg, if_neg, if_neg]
  · exact not_le.mpr h1
  · exact not_le.mpr h0
  · simp [hne]

theorem percentile_index_le (n : Nat) {p : ℚ} (hp1 : p ≤ 1) :
    (⌊p * ((n : ℕ) : ℚ)⌋).toNat ≤ n := by
  have h1 : p * ((n : ℕ) : ℚ) ≤ ((n : ℕ) : ℚ) :=
    mul_le_of_le_one_left (by positivity) hp1
  have h2 : ⌊p * ((n : ℕ) : ℚ)⌋ ≤ (n : ℤ) := by
    calc ⌊p * ((n : ℕ) : ℚ)⌋ ≤ ⌊((n : ℕ) : ℚ)⌋ := Int.floor_le_floor h1
    _ = (n : ℤ) := Int.floor_natCast n
  calc (⌊p * ((n : ℕ) : ℚ)⌋).toNat ≤ ((n : ℤ)).toNat := Int.toNat_le_toNat h2
  _ = n := Int.toNat_natCast n

theorem percentile_index_mono (m : Nat) {p q : ℚ} (hpq : p ≤ q) :
    (⌊p * ((m : ℕ) : ℚ)⌋).toNat ≤ (⌊q * ((m : ℕ) : ℚ)⌋).toNat :=
  Int.toNat_le_toNat (Int.floor_le_floor (mul_le_mul_of_nonneg_right hpq (by positivity)))

theorem sorted_getD_mono {l : List Nat} (hs : l.Sorted (· ≤ ·)) {i j : Nat}
    (hij : i ≤ j) (hj : j < l.length) : l.getD i 0 ≤ l.getD j 0 := by
  have hi : i < l.length := lt_of_le_of_lt hij hj
  rw [List.getD_eq_getElem l 0 hi, List.getD_eq_getElem l 0 hj]
  have := hs.rel_get_of_le (a := ⟨i, hi⟩) (b := ⟨j, hj⟩) hij
  simpa using this

theorem getD_mem_of_lt {l : List Nat} {i : Nat} (h : i < l.length) :
    l.getD i 0 ∈ l := by
  rw [List.getD_eq_getElem l 0 h]
  exact List.get_mem l i h

theorem min?_getD_mem {l : List Nat} (h : l ≠ []) : l.min?.getD 0 ∈ l := by
  match hm : l.min? with
  | none => exact absurd (List.min?_eq_none_iff.mp hm) h
  | some m =>
    simpa using List.min?_mem min_choice hm

theorem max?_getD_mem {l : List Nat} (h : l ≠ []) : l.max?.getD 0 ∈ l := by
  match hm : l.max? with
  | none => exact absurd (List.max?_eq_none_iff.mp hm) h
  | some m =>
    simpa using List.max?_mem max_choice hm

theorem sortAsc_ne_nil {samples : List Nat} (h : samples ≠ []) : sortAsc samples ≠ [] := by
  have hl : 0 < (sortAsc samples).length := by
    rw [length_sortAsc]; exact List.length_pos.mpr h
  exact List.length_pos.mp hl

theorem foldl_add_le_mul (M : ℚ) :
    ∀ (l : List Nat) (acc : ℚ), (∀ x ∈ l, (x : ℚ) ≤ M) →
      l.foldl (fun (a : ℚ) (x : Nat) => a + (x : ℚ)) acc ≤ acc + l.length * M := by
  intro l
  induction l with
  | nil => intro acc _; simp
  | cons y l ih =>
    intro acc hb
    have hy : (y : ℚ) ≤ M := hb y (List.mem_cons_self y l)
    have ht := ih (acc + (y : ℚ)) (fun x hx => hb x (List.mem_cons_of_mem y hx))
    have : (acc + (y : ℚ)) + l.length * M ≤ acc + (y :: l).length * M := by
      simp only [List.length_cons]
      push_cast
      nlinarith
    calc (y :: l).foldl (fun (a : ℚ) (x : Nat) => a + (x : ℚ)) acc
        = l.foldl (fun (a : ℚ) (x : Nat) => a + (x : ℚ)) (acc + (y : ℚ)) := rfl
      _ ≤ (acc + (y : ℚ)) + l.length * M := ht
      _ ≤ acc + (y :: l).length * M := this

theorem mul_le_foldl_add (m : ℚ) :
    ∀ (l : List Nat) (acc : ℚ), (∀ x ∈ l, m ≤ (x : ℚ)) →
      acc + l.length * m ≤ l.foldl (fun (a : ℚ) (x : Nat) => a + (x : ℚ)) acc := by
  intro l
  induction l with
  | nil => intro acc _; simp
  | cons y l ih =>
    intro acc hb
    have hy : m ≤ (y : ℚ) := hb y (List.mem_cons_self y l)
    have ht := ih (acc + (y : ℚ)) (fun x hx => hb x (List.mem_cons_of_mem y hx))
    have : acc + (y :: l).length * m ≤ (acc + (y : ℚ)) + l.length * m := by
      simp only [List.length_cons]
      push_cast
      nlinarith
    calc acc + (y :: l).length * m
        ≤ (acc + (y : ℚ)) + l.length * m := this
      _ ≤ l.foldl (fun (a : ℚ) (x : Nat) => a + (x : ℚ)) (acc + (y : ℚ)) := ht
      _ = (y :: l).foldl (fun (a : ℚ) (x : Nat) => a + (x : ℚ)) acc := rfl

/-! ## Claim theorems -/

/-- C2: for every iteration count `n ≥ 0` the measured loop produces
exactly `n` samples, one per iteration in iteration order (so none are
dropped or duplicated), and the result does not depend on the warmup
count — the warmup stage contributes no entries. -/
theorem measured_loop_sample_count (mode : Mode) (pfPages pageSize : Nat)
    (lat : Nat → Nat) (warmupIters n : Nat) :
    (runMain mode pfPages pageSize lat warmupIters n).samples
        = (List.range n).map lat ∧
    (runMain mode pfPages pageSize lat warmupIters n).samples.length = n ∧
    (runMain mode pfPages pageSize lat warmupIters n).samples
        = (runMain mode pfPages pageSize lat 0 n).samples := by
  refine ⟨runMain_samples .., ?_, ?_⟩
  · rw [runMain_samples]; simp
  · rw [runMain_samples, runMain_samples]

/-- C4: an empty sample sequence yields the all-zero statistics summary
(and `compute_stats` is total, so this degenerate case does not fail). -/
theorem compute_stats_empty :
    compute_stats [] =
      { min := 0, max := 0, avg := 0, p50 := 0, p90 := 0, p99 := 0, p999 := 0 } :=
  rfl

/-- C5: mode parsing maps `"baseline"`/`"syscall"`/`"pagefault"` to the
three modes, and every other first argument — as well as an absent
argument — selects `Baseline`; `parse_mode` is total, so this is never a
failure. -/
theorem parse_mode_spec :
    parse_mode [] = Mode.Baseline ∧
    (∀ rest : List String, parse_mode ("baseline" :: rest) = Mode.Baseline) ∧
    (∀ rest : List String, parse_mode ("syscall" :: rest) = Mode.Syscall) ∧
    (∀ rest : List String, parse_mode ("pagefault" :: rest) = Mode.Pagefault) ∧
    (∀ (m : String) (rest : List String),
      m ≠ "baseline" → m ≠ "syscall" → m ≠ "pagefault" →
      parse_mode (m :: rest) = Mode.Baseline) := by
  refine ⟨rfl, fun _ => rfl, fun _ => rfl, fun _ => rfl, ?_⟩
  intro m rest h1 h2 h3
  simp [parse_mode, h1, h2, h3]

/-- Witness for C5: the unrecognized argument `"bogus"` selects `Baseline`. -/
theorem parse_mode_spec_witness : parse_mode ["bogus"] = Mode.Baseline :=
  parse_mode_spec.2.2.2.2 "bogus" [] (by decide) (by decide) (by decide)

theorem pfScenario_eq : pfScenario = [0, 1, 2, 3, 0, 1, 2, 3, 0, 1] := by
  rw [pfScenario, runMain_touched]; decide

/-- C6: the page written at measured iteration `i` of a Pagefault run is
`i % pfPages`, and in the concrete 4-page/10-iteration scenario the
iterations 0-3 each touch a page not touched by any earlier iteration
(hence 4 distinct fresh pages) while iterations 4-9 revisit an
already-touched page. -/
theorem pagefault_page_cursor :
    (∀ (pfPages pageSize : Nat) (lat : Nat → Nat) (warmupIters n : Nat),
      (runMain Mode.Pagefault pfPages pageSize lat warmupIters n).touched
        = (List.range n).map (fun i => i % pfPages)) ∧
    (∀ i < 4, pfScenario.getD i 5 ∉ pfScenario.take i) ∧
    (∀ i < 10, 4 ≤ i → pfScenario.getD i 5 ∈ pfScenario.take i) := by
  refine ⟨fun pfPages pageSize lat w n => runMain_touched .., ?_, ?_⟩
  · simp only [pfScenario_eq]; decide
  · simp only [pfScenario_eq]; decide

/-- Witness for C6: iteration 2 touches a fresh page and iteration 6
revisits a touched one, in the 4-page scenario. -/
theorem pagefault_page_cursor_witness :
    pfScenario.getD 2 5 ∉ pfScenario.take 2 ∧
    pfScenario.getD 6 5 ∈ pfScenario.take 6 :=
  ⟨pagefault_page_cursor.2.1 2 (by decide),
   pagefault_page_cursor.2.2 6 (by decide) (by decide)⟩

example : pfScenario.getD 6 5 = 2 := by rw [pfScenario_eq]; decide

theorem resizeZeroed_writes (n : Nat) : (resizeZeroed n).2 = List.range n := rfl

/-- C7 (refuting): the Page Arena reservation is NOT touch-free.
`page_buf.resize(PF_PAGES * page_size)` value-initializes the vector, so
the setup writes a zero to every byte of the arena before the measured
loop — in particular at least one byte (byte 0) is written, contradicting
"no byte of the arena is written" (with the source's `PF_PAGES = 4096`
and a 4096-byte page). -/
theorem arena_reservation_writes_every_byte :
    (arenaInit Mode.Pagefault PF_PAGES 4096).2 = List.range (PF_PAGES * 4096) ∧
    0 ∈ (arenaInit Mode.Pagefault PF_PAGES 4096).2 := by
  have h : (arenaInit Mode.Pagefault PF_PAGES 4096).2 = List.range (PF_PAGES * 4096) :=
    resizeZeroed_writes _
  refine ⟨h, ?_⟩
  rw [h, List.mem_range]
  norm_num [PF_PAGES]

/-- C9: with the reservation satisfied, `main` completes and returns exit
code 0 together with a report; in Pagefault mode with a failed
reservation, the run aborts (`std::bad_alloc`, abnormal termination with
non-zero status) without producing a report. -/
theorem exit_code_spec :
    (∀ (mode : Mode) (pfPages pageSize : Nat) (lat : Nat → Nat) (w n : Nat),
      mainRun mode pfPages pageSize true lat w n =
        Except.ok (compute_stats (runMain mode pfPages pageSize lat w n).samples, 0)) ∧
    (∀ (pfPages pageSize : Nat) (lat : Nat → Nat) (w n : Nat),
      mainRun Mode.Pagefault pfPages pageSize false lat w n =
        Except.error "std::bad_alloc") := by
  constructor
  · intro mode pfPages pageSize lat w n
    simp [mainRun]
  · intro pfPages pageSize lat w n
    simp [mainRun]

/-- C1: for every non-empty sample sequence, each percentile field is the
element of the ascending-sorted sequence at index `⌊q * (n - 1)⌋` for its
target quantile `q` (nearest-rank, no interpolation), and the concrete
sequence `[10, 20, 30, 40, 50]` yields
`min=10, max=50, mean=30, p50=30, p90=40, p99=40, p999=40`. -/
theorem percentiles_nearest_rank :
    (∀ samples : List Nat, samples ≠ [] →
      ((compute_stats samples).p50
          = (sortAsc samples).getD (⌊(1/2 : ℚ) * ((samples.length - 1 : ℕ) : ℚ)⌋).toNat 0 ∧
       (compute_stats samples).p90
          = (sortAsc samples).getD (⌊(9/10 : ℚ) * ((samples.length - 1 : ℕ) : ℚ)⌋).toNat 0 ∧
       (compute_stats samples).p99
          = (sortAsc samples).getD (⌊(99/100 : ℚ) * ((samples.length - 1 : ℕ) : ℚ)⌋).toNat 0 ∧
       (compute_stats samples).p999
          = (sortAsc samples).getD (⌊(999/1000 : ℚ) * ((samples.length - 1 : ℕ) : ℚ)⌋).toNat 0)) ∧
    compute_stats [10, 20, 30, 40, 50]
      = { min := 10, max := 50, avg := 30, p50 := 30, p90 := 40, p99 := 40, p999 := 40 } := by
  constructor
  · intro samples h
    have hne : sortAsc samples ≠ [] := sortAsc_ne_nil h
    rw [compute_stats_ne_nil samples h]
    simp only
    rw [percentile_sorted_eq_getD _ _ hne (by norm_num) (by norm_num),
        percentile_sorted_eq_getD _ _ hne (by norm_num) (by norm_num),
        percentile_sorted_eq_getD _ _ hne (by norm_num) (by norm_num),
        percentile_sorted_eq_getD _ _ hne (by norm_num) (by norm_num),
        length_sortAsc]
    exact ⟨rfl, rfl, rfl, rfl⟩
  · have hsort : sortAsc [10, 20, 30, 40, 50] = [10, 20, 30, 40, 50] := by
      rw [sortAsc_eq_insertionSort]; decide
    rw [compute_stats_ne_nil _ (by decide), hsort]
    have f50 : ⌊(1/2 : ℚ) * ((([10, 20, 30, 40, 50] : List Nat).length - 1 : ℕ) : ℚ)⌋ = 2 := by
      rw [Int.floor_eq_iff]; norm_num
    have f90 : ⌊(9/10 : ℚ) * ((([10, 20, 30, 40, 50] : List Nat).length - 1 : ℕ) : ℚ)⌋ = 3 := by
      rw [Int.floor_eq_iff]; norm_num
    have f99 : ⌊(99/100 : ℚ) * ((([10, 20, 30, 40, 50] : List Nat).length - 1 : ℕ) : ℚ)⌋ = 3 := by
      rw [Int.floor_eq_iff]; norm_num
    have f999 : ⌊(999/1000 : ℚ) * ((([10, 20, 30, 40, 50] : List Nat).length - 1 : ℕ) : ℚ)⌋ = 3 := by
      rw [Int.floor_eq_iff]; norm_num
    simp only [Stats.mk.injEq]
    refine ⟨by decide, by decide, ?_, ?_, ?_, ?_, ?_⟩
    · norm_num [List.foldl]
    · rw [percentile_sorted_eq_getD _ _ (by decide) (by norm_num) (by norm_num), f50]; decide
    · rw [percentile_sorted_eq_getD _ _ (by decide) (by norm_num) (by norm_num), f90]; decide
    · rw [percentile_sorted_eq_getD _ _ (by decide) (by norm_num) (by norm_num), f99]; decide
    · rw [percentile_sorted_eq_getD _ _ (by decide) (by norm_num) (by norm_num), f999]; decide

/-- Witness for C1: the nearest-rank identities instantiated at
`[10, 20, 30, 40, 50]`. -/
theorem percentiles_nearest_rank_witness :
    (compute_stats [10, 20, 30, 40, 50]).p50
        = (sortAsc [10, 20, 30, 40, 50]).getD
            (⌊(1/2 : ℚ) * ((([10, 20, 30, 40, 50] : List Nat).length - 1 : ℕ) : ℚ)⌋).toNat 0 ∧
    (compute_stats [10, 20, 30, 40, 50]).p90
        = (sortAsc [10, 20, 30, 40, 50]).getD
            (⌊(9/10 : ℚ) * ((([10, 20, 30, 40, 50] : List Nat).length - 1 : ℕ) : ℚ)⌋).toNat 0 ∧
    (compute_stats [10, 20, 30, 40, 50]).p99
        = (sortAsc [10, 20, 30, 40, 50]).getD
            (⌊(99/100 : ℚ) * ((([10, 20, 30, 40, 50] : List Nat).length - 1 : ℕ) : ℚ)⌋).toNat 0 ∧
    (compute_stats [10, 20, 30, 40, 50]).p999
        = (sortAsc [10, 20, 30, 40, 50]).getD
            (⌊(999/1000 : ℚ) * ((([10, 20, 30, 40, 50] : List Nat).length - 1 : ℕ) : ℚ)⌋).toNat 0 :=
  percentiles_nearest_rank.1 [10, 20, 30, 40, 50] (by decide)

/-- C3: for every non-empty sample sequence the summary satisfies
`min ≤ p50 ≤ p90 ≤ p99 ≤ p999 ≤ max`. -/
theorem summary_monotone (samples : List Nat) (h : samples ≠ []) :
    (compute_stats samples).min ≤ (compute_stats samples).p50 ∧
    (compute_stats samples).p50 ≤ (compute_stats samples).p90 ∧
    (compute_stats samples).p90 ≤ (compute_stats samples).p99 ∧
    (compute_stats samples).p99 ≤ (compute_stats samples).p999 ∧
    (compute_stats samples).p999 ≤ (compute_stats samples).max := by
  have hne : sortAsc samples ≠ [] := sortAsc_ne_nil h
  have hpos : 0 < (sortAsc samples).length := List.length_pos.mpr hne
  rw [compute_stats_ne_nil samples h]
  simp only
  rw [percentile_sorted_eq_getD _ _ hne (by norm_num) (by norm_num),
      percentile_sorted_eq_getD _ _ hne (by norm_num) (by norm_num),
      percentile_sorted_eq_getD _ _ hne (by norm_num) (by norm_num),
      percentile_sorted_eq_getD _ _ hne (by norm_num) (by norm_num)]
  have h5090 := percentile_index_mono ((sortAsc samples).length - 1)
    (show (1/2 : ℚ) ≤ 9/10 by norm_num)
  have h9099 := percentile_index_mono ((sortAsc samples).length - 1)
    (show (9/10 : ℚ) ≤ 99/100 by norm_num)
  have h99999 := percentile_index_mono ((sortAsc samples).length - 1)
    (show (99/100 : ℚ) ≤ 999/1000 by norm_num)
  have h999 := percentile_index_le ((sortAsc samples).length - 1)
    (show (999/1000 : ℚ) ≤ 1 by norm_num)
  have hlt : (⌊(999/1000 : ℚ) * (((sortAsc samples).length - 1 : ℕ) : ℚ)⌋).toNat
      < (sortAsc samples).length := by omega
  refine ⟨?_, ?_, ?_, ?_, ?_⟩
  · exact List.min?_getD_le_of_mem ((sortAsc_perm samples).mem_iff.mp
      (getD_mem_of_lt (by omega)))
  · exact sorted_getD_mono (sortAsc_sorted samples) h5090 (by omega)
  · exact sorted_getD_mono (sortAsc_sorted samples) h9099 (by omega)
  · exact sorted_getD_mono (sortAsc_sorted samples) h99999 hlt
  · exact List.le_max?_getD_of_mem ((sortAsc_perm samples).mem_iff.mp
      (getD_mem_of_lt hlt))

/-- Witness for C3 at the concrete sequence `[10, 20, 30, 40, 50]`. -/
theorem summary_monotone_witness :
    (compute_stats [10, 20, 30, 40, 50]).min ≤ (compute_stats [10, 20, 30, 40, 50]).p50 ∧
    (compute_stats [10, 20, 30, 40, 50]).p50 ≤ (compute_stats [10, 20, 30, 40, 50]).p90 ∧
    (compute_stats [10, 20, 30, 40, 50]).p90 ≤ (compute_stats [10, 20, 30, 40, 50]).p99 ∧
    (compute_stats [10, 20, 30, 40, 50]).p99 ≤ (compute_stats [10, 20, 30, 40, 50]).p999 ∧
    (compute_stats [10, 20, 30, 40, 50]).p999 ≤ (compute_stats [10, 20, 30, 40, 50]).max :=
  summary_monotone [10, 20, 30, 40, 50] (by decide)

/-- C8: for every non-empty sample sequence the mean (exact wide-type sum
divided by the count) lies within `[min, max]` of the summary. -/
theorem mean_in_min_max (samples : List Nat) (h : samples ≠ []) :
    ((compute_stats samples).min : ℚ) ≤ (compute_stats samples).avg ∧
    (compute_stats samples).avg ≤ ((compute_stats samples).max : ℚ) := by
  rw [compute_stats_ne_nil samples h]
  simp only
  have hposQ : (0 : ℚ) < (samples.length : ℚ) := by
    exact_mod_cast List.length_pos.mpr h
  have hub : ∀ x ∈ samples, (x : ℚ) ≤ ((samples.max?.getD 0 : ℕ) : ℚ) := by
    intro x hx
    exact_mod_cast List.le_max?_getD_of_mem hx
  have hlb : ∀ x ∈ samples, ((samples.min?.getD 0 : ℕ) : ℚ) ≤ (x : ℚ) := by
    intro x hx
    exact_mod_cast List.min?_getD_le_of_mem hx
  have h1 := foldl_add_le_mul _ samples 0 hub
  have h2 := mul_le_foldl_add _ samples 0 hlb
  constructor
  · rw [le_div_iff₀ hposQ]
    calc ((samples.min?.getD 0 : ℕ) : ℚ) * (samples.length : ℚ)
        = 0 + (samples.length : ℚ) * ((samples.min?.getD 0 : ℕ) : ℚ) := by ring
      _ ≤ samples.foldl (fun (a : ℚ) (x : Nat) => a + (x : ℚ)) 0 := h2
  · rw [div_le_iff₀ hposQ]
    calc samples.foldl (fun (a : ℚ) (x : Nat) => a + (x : ℚ)) 0
        ≤ 0 + (samples.length : ℚ) * ((samples.max?.getD 0 : ℕ) : ℚ) := h1
      _ = ((samples.max?.getD 0 : ℕ) : ℚ) * (samples.length : ℚ) := by ring

/-- Witness for C8 at the concrete sequence `[10, 20, 30, 40, 50]`. -/
theorem mean_in_min_max_witness :
    ((compute_stats [10, 20, 30, 40, 50]).min : ℚ) ≤ (compute_stats [10, 20, 30, 40, 50]).avg ∧
    (compute_stats [10, 20, 30, 40, 50]).avg ≤ ((compute_stats [10, 20, 30, 40, 50]).max : ℚ) :=
  mean_in_min_max [10, 20, 30, 40, 50] (by decide)

/-- C10: for every non-empty sample sequence, each of `min`, `max`, `p50`,
`p90`, `p99`, `p999` is an element of the input sequence — the reducer never
fabricates these values by interpolation or averaging. -/
theorem summary_fields_mem (samples : List Nat) (h : samples ≠ []) :
    (compute_stats samples).min ∈ samples ∧
    (compute_stats samples).max ∈ samples ∧
    (compute_stats samples).p50 ∈ samples ∧
    (compute_stats samples).p90 ∈ samples ∧
    (compute_stats samples).p99 ∈ samples ∧
    (compute_stats samples).p999 ∈ samples := by
  have hne : sortAsc samples ≠ [] := sortAsc_ne_nil h
  have hpos : 0 < (sortAsc samples).length := List.length_pos.mpr hne
  rw [compute_stats_ne_nil samples h]
  simp only
  rw [percentile_sorted_eq_getD _ _ hne (by norm_num) (by norm_num),
      percentile_sorted_eq_getD _ _ hne (by norm_num) (by norm_num),
      percentile_sorted_eq_getD _ _ hne (by norm_num) (by norm_num),
      percentile_sorted_eq_getD _ _ hne (by norm_num) (by norm_num)]
  have hi : ∀ p : ℚ, p ≤ 1 →
      (⌊p * (((sortAsc samples).length - 1 : ℕ) : ℚ)⌋).toNat < (sortAsc samples).length := by
    intro p hp
    have := percentile_index_le ((sortAsc samples).length - 1) hp
    omega
  refine ⟨min?_getD_mem h, max?_getD_mem h, ?_, ?_, ?_, ?_⟩ <;>
    exact (sortAsc_perm samples).mem_iff.mp (getD_mem_of_lt (hi _ (by norm_num)))

/-- Witness for C10 at the concrete sequence `[10, 20, 30, 40, 50]`. -/
theorem summary_fields_mem_witness :
    (compute_stats [10, 20, 30, 40, 50]).min ∈ [10, 20, 30, 40, 50] ∧
    (compute_stats [10, 20, 30, 40, 50]).max ∈ [10, 20, 30, 40, 50] ∧
    (compute_stats [10, 20, 30, 40, 50]).p50 ∈ [10, 20, 30, 40, 50] ∧
    (compute_stats [10, 20, 30, 40, 50]).p90 ∈ [10, 20, 30, 40, 50] ∧
    (compute_stats [10, 20, 30, 40, 50]).p99 ∈ [10, 20, 30, 40, 50] ∧
    (compute_stats [10, 20, 30, 40, 50]).p999 ∈ [10, 20, 30, 40, 50] :=
  summary_fields_mem [10, 20, 30, 40, 50] (by decide)

end LatencyHarness
